import Mathlib

/-!
Verification development for the vLLM deployment supervisor
(src/vllm_deploy.py): a shallow embedding of its pure logic —
GPU-group parsing, metrics-body parsing, nginx-config rendering,
the cleanup pass over the process registry, the preflight/setup
phase of main, and the monitor loop — together with theorems
settling the specified properties.

Python strings are embedded as lists of characters (Str), so that
every definition is executable by kernel reduction and concrete
instances can be settled with decide.
-/

namespace VllmDeploy

/-- Embedding of Python strings: a list of characters. -/
abbrev Str := List Char

/-- Coerces a Lean string literal to the character-list embedding. -/
def strChars (s : String) : Str := s.toList

/-- Embedding of Python s.split(sep) for a single-character separator:
splitting the empty string yields one empty piece, and separators at the
ends yield empty pieces, exactly as in Python. -/
def splitOnChar (c : Char) : Str → List Str
  | [] => [[]]
  | a :: rest =>
    let r := splitOnChar c rest
    if a = c then [] :: r
    else
      match r with
      | [] => [[a]]
      | g :: gs => (a :: g) :: gs

/-- Embedding of Python s.startswith(p): the needle is consumed in
lockstep with the string. -/
def lStartsWith (p s : Str) : Bool :=
  match p, s with
  | [], _ => true
  | a :: p2, b :: s2 => a = b && lStartsWith p2 s2
  | _, [] => false

/-- Whitespace set of Python str.strip() / str.split() (ASCII part). -/
def isPySpace (c : Char) : Bool :=
  c = ' ' || c = '\t' || c = '\n' || c = '\x0d' || c = '\x0b' || c = '\x0c'

/-- Embedding of Python s.strip(). -/
def pyStrip (s : Str) : Str :=
  ((s.dropWhile isPySpace).reverse.dropWhile isPySpace).reverse

/-- Splits on a character predicate, keeping empty pieces. -/
def splitOnPred (p : Char → Bool) : Str → List Str
  | [] => [[]]
  | a :: rest =>
    let r := splitOnPred p rest
    if p a then [] :: r
    else
      match r with
      | [] => [[a]]
      | g :: gs => (a :: g) :: gs

/-- Embedding of Python s.split() with no argument: split on whitespace
runs, discarding empty pieces. -/
def pySplitWs (s : Str) : List Str :=
  (splitOnPred isPySpace s).filter (fun g => ¬ g.isEmpty)

/-- Digit character for a value below ten. -/
def digitCh (n : Nat) : Char :=
  if n = 0 then '0' else if n = 1 then '1' else if n = 2 then '2'
  else if n = 3 then '3' else if n = 4 then '4' else if n = 5 then '5'
  else if n = 6 then '6' else if n = 7 then '7' else if n = 8 then '8'
  else '9'

/-- Fuelled decimal rendering, most significant digit first. -/
def natCharsAux : Nat → Nat → Str
  | 0, _ => []
  | fuel + 1, n => if n = 0 then [] else natCharsAux fuel (n / 10) ++ [digitCh (n % 10)]

/-- Decimal rendering of a natural number, as Python str(n) produces it
inside an f-string. -/
def natChars (n : Nat) : Str := if n = 0 then ['0'] else natCharsAux n n

/-- Numeric value of a digit character, if it is one: the ASCII code
relative to the code of the zero digit. -/
def digitVal (c : Char) : Option Nat :=
  if '0' ≤ c ∧ c ≤ '9' then some (c.toNat - 48) else none

/-- Reads a digit string left to right, accumulating its value; none if
any character is not a digit. -/
def digitsValAux (acc : Nat) : Str → Option Nat
  | [] => some acc
  | c :: cs =>
    match digitVal c with
    | none => none
    | some d => digitsValAux (acc * 10 + d) cs

/-- Reads a digit string as a natural number; none if any character is
not a digit. An empty string reads as 0 (callers require a digit
somewhere). -/
def digitsVal (s : Str) : Option Nat := digitsValAux 0 s

/-- Modelled after Python int(float(s)) on plain decimal literals, as
applied by get_worker_stats to the last token of a metric line: optional
sign, optional integer part, optional dot and fractional part, at least
one digit overall; the value is truncated toward zero, so the fractional
digits only need to be well formed. Returns none where float(s) raises
ValueError. Exponent, infinity and nan literals — which the metric lines
under consideration never carry — are not modelled and also map to none. -/
def pyFloatTrunc (s : Str) : Option Int :=
  let s := pyStrip s
  let (neg, s) :=
    match s with
    | '-' :: rest => (true, rest)
    | '+' :: rest => (false, rest)
    | _ => (false, s)
  match splitOnChar '.' s with
  | [intPart] =>
    if intPart.isEmpty then none
    else (digitsVal intPart).map (fun n => if neg then -(n : Int) else (n : Int))
  | [intPart, fracPart] =>
    if intPart.isEmpty && fracPart.isEmpty then none
    else
      match digitsVal intPart, digitsVal fracPart with
      | some n, some _ => some (if neg then -(n : Int) else (n : Int))
      | _, _ => none
  | _ => none

/-!
Topology Planner: parse_gpu_groups (src/vllm_deploy.py lines 23-38) and
the port assignment of the worker spawn loop in main (lines 246-273).
-/

/-- Embedding of parse_gpu_groups: splits the GPU string on commas; each
stripped group of length above one with no comma in it is expanded into
its characters rejoined with commas; every other group passes through
(stripped) unchanged. Total: the source defines no error path. -/
def parse_gpu_groups (gpu_str : Str) : List Str :=
  (splitOnChar ',' gpu_str).map (fun group₀ =>
    let group := pyStrip group₀
    if group.length > 1 ∧ ¬ (',' ∈ group) then
      List.intercalate [','] (group.map (fun c => [c]))
    else
      group)

/-- Worker ports as assigned by the spawn loop in main: current_port
starts at start_port and increments once per GPU group. -/
def workerPortsFrom (port : Nat) : List Str → List Nat
  | [] => []
  | _ :: gs => port :: workerPortsFrom (port + 1) gs

/-- Token-level expansion rule as the specification words it: a token of
length above one containing no comma is expanded by splitting into
individual characters and rejoining with commas; all other tokens pass
through unchanged. Stated on stripped tokens. -/
def specExpandToken (t : Str) : Str :=
  if t.length > 1 ∧ ¬ (',' ∈ t) then
    List.intercalate [','] (t.map (fun c => [c]))
  else t

/-!
Metrics Poller: get_worker_stats (src/vllm_deploy.py lines 144-160).
The HTTP interaction of requests.get is abstracted as an oracle from
port to outcome: either a raised transport error, or a response with a
status code and a body.
-/

/-- Outcome of the HTTP GET against a worker metrics endpoint: either
requests.get raised (connection failure, timeout, ...), or it returned a
response with a status code and a text body. -/
inductive HttpOutcome where
  | transportError : HttpOutcome
  | response (status : Nat) (text : Str) : HttpOutcome
deriving DecidableEq, Repr

/-- Value of one stats field: a parsed integer, or the dash placeholder
the source uses for an unknown value. -/
inductive StatVal where
  | known (n : Int) : StatVal
  | unknown : StatVal
deriving DecidableEq, Repr

/-- Result dictionary of get_worker_stats. -/
structure WorkerStats where
  current_processing : StatVal
  total_processed : StatVal
deriving DecidableEq, Repr

/-- Stats returned on any failure path. -/
def unknownStats : WorkerStats := ⟨StatVal.unknown, StatVal.unknown⟩

/-- Metric-line marker for the running gauge, including the opening
brace the source matches on. -/
def runningKey : Str := strChars "vllm:num_requests_running\x7b"

/-- Metric-line marker for the success counter, including the opening
brace the source matches on. -/
def successKey : Str := strChars "vllm:request_success_total\x7b"

/-- Python line.split()[-1] followed by int(float(...)): the last
whitespace-separated token parsed as a truncated float. None models the
IndexError on an all-whitespace line as well as the ValueError on a
malformed token, both caught by the bare except of the source. -/
def parseLastTok (line : Str) : Option Int :=
  match (pySplitWs line).getLast? with
  | none => none
  | some tok => pyFloatTrunc tok

/-- Scan of the response body lines, mirroring the for loop of
get_worker_stats: running and total start at 0, each matching line
overwrites its field with the parsed last token, and a parse failure
aborts the whole scan (the exception propagates to the bare except). -/
def scanMetricLines : List Str → Int → Int → Option (Int × Int)
  | [], running, total => some (running, total)
  | line :: rest, running, total =>
    if lStartsWith runningKey line then
      match parseLastTok line with
      | none => none
      | some v => scanMetricLines rest v total
    else if lStartsWith successKey line then
      match parseLastTok line with
      | none => none
      | some v => scanMetricLines rest running v
    else
      scanMetricLines rest running total

/-- Embedding of get_worker_stats: on a raised transport error, a
non-200 status, or a scan failure, returns the unknown/unknown
dictionary; on a successful scan of a 200 body, returns the two parsed
fields. The net oracle stands for the network state at this poll. -/
def get_worker_stats (net : Nat → HttpOutcome) (port : Nat) : WorkerStats :=
  match net port with
  | HttpOutcome.transportError => unknownStats
  | HttpOutcome.response status text =>
    if status = 200 then
      match scanMetricLines (splitOnChar '\n' text) 0 0 with
      | none => unknownStats
      | some (running, total) => ⟨StatVal.known running, StatVal.known total⟩
    else unknownStats

/-!
Proxy Config Generator: generate_nginx_config (src/vllm_deploy.py lines
203-232). The rendered text is a sequence of newline-terminated lines:
a fixed header, one upstream server line per worker port, and a fixed
tail containing the single virtual server with its listen line. The
embedding builds exactly the f-string of the source (which starts with a
newline and ends with a newline) as that line sequence.
-/

/-- Joins lines, terminating every line with a newline. -/
def unlines : List Str → Str
  | [] => []
  | l :: ls => l ++ '\n' :: unlines ls

/-- Upstream entry line for one worker port, without its terminating
newline: 8 spaces, then server 127.0.0.1:PORT and a semicolon. -/
def serverLine (port : Nat) : Str :=
  strChars "        server 127.0.0.1:" ++ natChars port ++ [';']

/-- Embedding of the upstream_block loop: one server line per port, each
terminated by a newline, concatenated in input order. -/
def upstream_block (port_list : List Nat) : Str :=
  (port_list.map (fun port => serverLine port ++ ['\n'])).foldr (· ++ ·) []

/-- Lines of the config f-string that precede the upstream block (the
f-string opens with a blank line; LOG_DIR and the log paths are the
constants of the source). -/
def configHeadLines : List Str :=
  [ strChars "",
    strChars "worker_processes auto;",
    strChars "pid /tmp/vllm_py/nginx.pid;",
    strChars "error_log /tmp/vllm_py/nginx_error.log warn;",
    strChars "events \x7b worker_connections 1024; \x7d",
    strChars "http \x7b",
    strChars "    access_log /dev/null;",
    strChars "    proxy_read_timeout 1200s;",
    strChars "    upstream vllm_backend \x7b",
    strChars "        least_conn;" ]

/-- Listen line of the single server block. -/
def listenLine (nginx_port : Nat) : Str :=
  strChars "        listen " ++ natChars nginx_port ++ [';']

/-- Lines of the config f-string that follow the upstream block: the
blank line left by the newline after the interpolated block, the close
of the upstream, and the single server block. -/
def configTailLines (nginx_port : Nat) : List Str :=
  [ strChars "",
    strChars "    \x7d",
    strChars "    server \x7b",
    listenLine nginx_port,
    strChars "        location / \x7b",
    strChars "            proxy_pass http://vllm_backend;",
    strChars "            proxy_http_version 1.1;",
    strChars "            proxy_set_header Connection \"\";",
    strChars "            proxy_buffering off; ",
    strChars "        \x7d",
    strChars "    \x7d",
    strChars "\x7d" ]

/-- Embedding of generate_nginx_config: the exact text written to the
config file (the file write itself is I/O and out of the embedding). -/
def generate_nginx_config (port_list : List Nat) (nginx_port : Nat) : Str :=
  unlines configHeadLines ++ upstream_block port_list ++ unlines (configTailLines nginx_port)

/-!
Lifecycle Cleanup: cleanup_processes (src/vllm_deploy.py lines 131-141),
registered once with atexit. The registry is the RUNNING_PROCESSES list;
each entry is abstracted by what cleanup can observe of it: whether
poll() still returns None (the process has not exited), and whether the
killpg/getpgid call would raise OSError (the process died in between).
-/

/-- Observable state of one registered process handle at cleanup time. -/
structure ProcHandle where
  pollIsNone : Bool
  killpgRaises : Bool
deriving DecidableEq, Repr

/-- Event trace of one cleanup pass, indexed by registry position. -/
inductive CleanupEvent where
  | signaled (idx : Nat) : CleanupEvent
  | errorIgnored (idx : Nat) : CleanupEvent
  | skipped (idx : Nat) : CleanupEvent
deriving DecidableEq, Repr

/-- One iteration of the cleanup loop over the tail of the registry
starting at index idx. -/
def cleanupFrom (idx : Nat) : List ProcHandle → List CleanupEvent
  | [] => []
  | proc :: rest =>
    (if proc.pollIsNone then
      (if proc.killpgRaises then CleanupEvent.errorIgnored idx else CleanupEvent.signaled idx)
     else CleanupEvent.skipped idx) :: cleanupFrom (idx + 1) rest

/-- Embedding of cleanup_processes: walks RUNNING_PROCESSES in insertion
order; an entry whose poll() is None gets one killpg on its process
group (OSError ignored); an entry whose process already exited is
skipped. Total: no event raises. -/
def cleanup_processes (procs : List ProcHandle) : List CleanupEvent :=
  cleanupFrom 0 procs

/-- Number of termination signals the cleanup pass delivers to the entry
at a given registry index. -/
def signalCount (evs : List CleanupEvent) (idx : Nat) : Nat :=
  evs.count (CleanupEvent.signaled idx)

/-- Number of signal attempts (delivered or raising OSError) the cleanup
pass makes on the entry at a given registry index. -/
def attemptCount (evs : List CleanupEvent) (idx : Nat) : Nat :=
  evs.count (CleanupEvent.signaled idx) + evs.count (CleanupEvent.errorIgnored idx)

/-!
Preflight and setup: check_requirements (src/vllm_deploy.py lines
181-197) and the setup phase of main (lines 238-287). The operating
system is abstracted by whether the nginx binary resolves and which
ports are bound; process creation and registration are recorded as an
event trace, and RUNNING_PROCESSES as the registry list.
-/

/-- Deployment configuration after argument parsing: the parsed GPU
groups, the nginx listen port and the worker start port. -/
structure DeployConfig where
  gpuGroups : List Str
  nginxPort : Nat
  startPort : Nat

/-- Environment observed by the preflight checks: whether shutil.which
finds nginx, and which ports connect_ex reports as in use. -/
structure SysEnv where
  nginxFound : Bool
  portUsed : Nat → Bool

/-- Embedding of is_port_in_use. -/
def is_port_in_use (env : SysEnv) (port : Nat) : Bool := env.portUsed port

/-- Embedding of check_requirements: nginx binary present, load-balancer
port free, and every planned worker port START_PORT + i free; any
failure exits before anything is spawned. -/
def check_requirements (env : SysEnv) (cfg : DeployConfig) : Bool :=
  env.nginxFound
  && ¬ is_port_in_use env cfg.nginxPort
  && (List.range cfg.gpuGroups.length).all (fun i => ¬ is_port_in_use env (cfg.startPort + i))

/-- Handle identity in the RUNNING_PROCESSES registry. -/
inductive Handle where
  | worker (idx : Nat) : Handle
  | nginx : Handle
deriving DecidableEq, Repr

/-- Events of the setup phase of main, in program order. -/
inductive SetupEvent where
  | spawnWorker (idx : Nat) (port : Nat) (gpus : Str) : SetupEvent
  | registerWorker (idx : Nat) : SetupEvent
  | genConfig (ports : List Nat) (nginx_port : Nat) : SetupEvent
  | spawnNginx : SetupEvent
  | registerNginx : SetupEvent
deriving DecidableEq, Repr

/-- Worker spawn loop of main: for each GPU group in order, spawn the
worker on the current port and append it to RUNNING_PROCESSES, then
increment the port. Returns the events, the registered handles and
worker_ports. -/
def spawnWorkers (idx : Nat) (port : Nat) :
    List Str → List SetupEvent × List Handle × List Nat
  | [] => ([], [], [])
  | gpus :: rest =>
    let (evs, hs, ports) := spawnWorkers (idx + 1) (port + 1) rest
    (SetupEvent.spawnWorker idx port gpus :: SetupEvent.registerWorker idx :: evs,
     Handle.worker idx :: hs,
     port :: ports)

/-- Result of the setup phase: whether it aborted in preflight, the
event trace, the final registry and worker_ports. -/
structure SetupResult where
  aborted : Bool
  events : List SetupEvent
  registry : List Handle
  workerPorts : List Nat
deriving DecidableEq, Repr

/-- Embedding of the setup phase of main: check_requirements first
(sys.exit before anything is spawned on failure), then the worker spawn
loop, then generate_nginx_config over the complete worker_ports, then
the nginx Popen and its registration. -/
def mainSetup (env : SysEnv) (cfg : DeployConfig) : SetupResult :=
  if check_requirements env cfg then
    let (evs, hs, ports) := spawnWorkers 0 cfg.startPort cfg.gpuGroups
    { aborted := false,
      events := evs ++ [SetupEvent.genConfig ports cfg.nginxPort,
                        SetupEvent.spawnNginx, SetupEvent.registerNginx],
      registry := hs ++ [Handle.nginx],
      workerPorts := ports }
  else
    { aborted := true, events := [], registry := [], workerPorts := [] }

/-!
Monitor Loop: the while loop of main (src/vllm_deploy.py lines 293-332).
Each tick of the environment supplies what the iteration observes: an
interrupt arriving, the clock, nginx liveness, and each worker's
liveness. STATS_INTERVAL is the source constant 5; last_stats_time
starts at 0.
-/

/-- Seconds between stats refreshes (source constant). -/
def STATS_INTERVAL : Nat := 5

/-- Environment of one loop iteration. -/
structure Tick where
  interrupt : Bool
  now : Nat
  nginxAlive : Bool
  workersAlive : List Bool
deriving DecidableEq, Repr

/-- Observable output of one completed iteration: whether the stats
table was rendered, and which dead workers were reported. -/
structure IterOut where
  rendered : Bool
  reported : List Nat
deriving DecidableEq, Repr

/-- Cause of leaving the loop. -/
inductive ExitCause where
  | interrupted : ExitCause
  | nginxDied : ExitCause
  | stillRunning : ExitCause
deriving DecidableEq, Repr

/-- Worker liveness scan of one iteration: workers are checked in
registry order and the scan breaks at the first dead worker found, so at
most one index is reported per iteration. -/
def scanWorkers (idx : Nat) : List Bool → List Nat
  | [] => []
  | alive :: rest => if alive then scanWorkers (idx + 1) rest else [idx]

/-- Embedding of the monitor loop, driven by a finite tick schedule:
each iteration sleeps (consuming its tick), renders stats when the time
since the last refresh reaches STATS_INTERVAL, breaks if nginx has
exited, and otherwise scans workers with an inner break at the first
dead one. An interrupt short-circuits the iteration. stillRunning means
the schedule was exhausted with the loop still live. -/
def runLoop (last : Nat) : List Tick → List IterOut × ExitCause
  | [] => ([], ExitCause.stillRunning)
  | t :: rest =>
    if t.interrupt then ([], ExitCause.interrupted)
    else
      let rendered := STATS_INTERVAL ≤ t.now - last
      let last' := if rendered then t.now else last
      if ¬ t.nginxAlive then
        ([⟨rendered, []⟩], ExitCause.nginxDied)
      else
        let out : IterOut := ⟨rendered, scanWorkers 0 t.workersAlive⟩
        let (outs, cause) := runLoop last' rest
        (out :: outs, cause)

/-- Entry into the monitor loop: last_stats_time is initialised to 0. -/
def monitorLoop (ticks : List Tick) : List IterOut × ExitCause :=
  runLoop 0 ticks

/-!
Helper lemmas on the string embedding.
-/

theorem mem_splitOnChar (c : Char) (s : Str) :
    ∀ g ∈ splitOnChar c s, c ∉ g := by
  induction s with
  | nil => intro g hg; simp [splitOnChar] at hg; simp [hg]
  | cons a rest ih =>
    intro g hg
    simp only [splitOnChar] at hg
    by_cases hac : a = c
    · simp [hac] at hg
      rcases hg with hg | hg
      · simp [hg]
      · exact ih g hg
    · simp [hac] at hg
      rcases hr : splitOnChar c rest with _ | ⟨g₀, gs⟩
      · simp [hr] at hg
        intro hmem
        rcases List.mem_cons.mp (hg ▸ hmem) with h | h
        · exact hac h.symm
        · simp at h
      · simp [hr] at hg
        rcases hg with hg | hg
        · intro hmem
          rcases List.mem_cons.mp (hg ▸ hmem) with h | h
          · exact hac h.symm
          · exact ih g₀ (by simp [hr]) h
        · exact ih g (by simp [hr, hg])

theorem not_mem_pyStrip {c : Char} {s : Str} (h : c ∉ s) : c ∉ pyStrip s := by
  intro hmem
  apply h
  unfold pyStrip at hmem
  have h1 := List.dropWhile_sublist (l := (s.dropWhile isPySpace).reverse) (p := isPySpace)
  have h2 := List.dropWhile_sublist (l := s) (p := isPySpace)
  have := (h1.reverse.subset (by simpa using hmem))
  exact h2.subset (by simpa using this)

theorem splitOnChar_cons_sep (c : Char) (a b : Str) (h : c ∉ a) :
    splitOnChar c (a ++ c :: b) = a :: splitOnChar c b := by
  induction a with
  | nil => simp [splitOnChar]
  | cons x xs ih =>
    have hx : ¬ x = c := by intro hx; exact h (by simp [hx])
    have hxs : c ∉ xs := by intro hm; exact h (by simp [hm])
    show splitOnChar c (x :: (xs ++ c :: b)) = (x :: xs) :: splitOnChar c b
    rw [splitOnChar, ih hxs]
    simp [hx]

theorem splitOnChar_unlines (ls : List Str) (h : ∀ l ∈ ls, '\n' ∉ l) :
    splitOnChar '\n' (unlines ls) = ls ++ [[]] := by
  induction ls with
  | nil => simp [unlines, splitOnChar]
  | cons l rest ih =>
    have hl : '\n' ∉ l := h l (by simp)
    have hrest : ∀ x ∈ rest, '\n' ∉ x := fun x hx => h x (by simp [hx])
    simp only [unlines, splitOnChar_cons_sep '\n' l (unlines rest) hl, ih hrest,
      List.cons_append]

theorem unlines_append (xs ys : List Str) :
    unlines (xs ++ ys) = unlines xs ++ unlines ys := by
  induction xs with
  | nil => simp [unlines]
  | cons l rest ih => simp [unlines, ih]

theorem lStartsWith_append (p a b : Str) :
    lStartsWith p (a ++ b) =
      (lStartsWith (p.take a.length) a && lStartsWith (p.drop a.length) b) := by
  induction a generalizing p with
  | nil => cases p <;> simp [lStartsWith]
  | cons x xs ih =>
    cases p with
    | nil => simp [lStartsWith]
    | cons y ys => simp [lStartsWith, ih ys, Bool.and_assoc]

theorem lStartsWith_self_append (p b : Str) : lStartsWith p (p ++ b) = true := by
  rw [lStartsWith_append]
  have h1 : lStartsWith p p = true := by
    induction p with
    | nil => simp [lStartsWith]
    | cons x xs ih => simp [lStartsWith, ih]
  simp [List.take_length, List.drop_length, h1, lStartsWith]

/-!
Claim C4: token expansion rule and gapless port assignment of the
Topology Planner.
-/

theorem parse_gpu_groups_map (s : Str) :
    parse_gpu_groups s = (splitOnChar ',' s).map (fun t => specExpandToken (pyStrip t)) := by
  simp only [parse_gpu_groups, specExpandToken]

theorem workerPortsFrom_range (start : Nat) (groups : List Str) :
    workerPortsFrom start groups = (List.range groups.length).map (fun i => start + i) := by
  induction groups generalizing start with
  | nil => simp [workerPortsFrom]
  | cons g gs ih =>
    simp only [workerPortsFrom, List.length_cons, List.range_succ_eq_map,
      List.map_cons, List.map_map, ih]
    congr 1
    apply List.map_congr_left
    intro i _
    simp only [Function.comp]
    omega

/-- C4: the Topology Planner is the pure deterministic map applying the
token expansion rule (a stripped token of length above one, which never
contains a comma since tokens come from splitting on commas, is expanded
into its characters rejoined with commas; every other token passes
through unchanged), ports are assigned start_port + index gaplessly, and
the two concrete inputs of the claim produce exactly the stated
placements and ports. -/
theorem topology_planner_spec :
    (∀ s : Str, parse_gpu_groups s = (splitOnChar ',' s).map (fun t => specExpandToken (pyStrip t)))
    ∧ (∀ s : Str, ∀ t ∈ splitOnChar ',' s, ',' ∉ t)
    ∧ (∀ start : Nat, ∀ groups : List Str,
        workerPortsFrom start groups = (List.range groups.length).map (fun i => start + i))
    ∧ parse_gpu_groups (strChars "01,23,45,67") =
        [strChars "0,1", strChars "2,3", strChars "4,5", strChars "6,7"]
    ∧ workerPortsFrom 8000 (parse_gpu_groups (strChars "01,23,45,67")) = [8000, 8001, 8002, 8003]
    ∧ parse_gpu_groups (strChars "0,1,2,3") =
        [strChars "0", strChars "1", strChars "2", strChars "3"]
    ∧ workerPortsFrom 8000 (parse_gpu_groups (strChars "0,1,2,3")) = [8000, 8001, 8002, 8003] :=
  ⟨parse_gpu_groups_map,
   fun s => mem_splitOnChar ',' s,
   workerPortsFrom_range,
   by decide, by decide, by decide, by decide⟩

/-- Witness for C4: the expansion rule and the no-comma token fact at
the concrete input of the claim. -/
theorem topology_planner_spec_witness :
    parse_gpu_groups (strChars "01,23") =
      (splitOnChar ',' (strChars "01,23")).map (fun t => specExpandToken (pyStrip t))
    ∧ ',' ∉ strChars "01" :=
  ⟨topology_planner_spec.1 (strChars "01,23"),
   topology_planner_spec.2.1 (strChars "01,23") (strChars "01") (by decide)⟩

/-!
Claim C5: the source defines no ConfigError; an empty group token
passes through parse_gpu_groups unchanged as an empty device list, and
placements are still produced.
-/

/-- C5 counterexample: on the malformed input consisting of a single
comma — both of whose group tokens are empty — parse_gpu_groups raises
nothing and returns two placements (both with an empty device list),
contradicting the claim that the planner fails with ConfigError and
returns no placements. -/
theorem parse_gpu_groups_empty_token_cex :
    parse_gpu_groups (strChars ",") = [[], []]
    ∧ (parse_gpu_groups (strChars ",")).length = 2
    ∧ parse_gpu_groups (strChars "01,,23") = [strChars "0,1", [], strChars "2,3"] := by
  decide

/-- C5 amended: parse_gpu_groups is total — the source defines no
ConfigError path — and returns exactly one group per comma-separated
token of the input; a token that strips to the empty string yields an
empty device list in the output at the same position, rather than an
error. -/
theorem parse_gpu_groups_empty_token (s : Str) :
    (parse_gpu_groups s).length = (splitOnChar ',' s).length
    ∧ ∀ i (h : i < (splitOnChar ',' s).length),
        pyStrip ((splitOnChar ',' s).get ⟨i, h⟩) = [] →
        (parse_gpu_groups s).get ⟨i, by simpa [parse_gpu_groups] using h⟩ = [] := by
  constructor
  · simp [parse_gpu_groups]
  · intro i h hempty
    simp only [parse_gpu_groups, List.get_eq_getElem, List.getElem_map]
    simp only [List.get_eq_getElem] at hempty
    rw [hempty]
    simp

/-- Witness for C5 amended: on the single-comma input, both tokens strip
to empty and both output groups are empty. -/
theorem parse_gpu_groups_empty_token_witness :
    (parse_gpu_groups (strChars ",")).length = (splitOnChar ',' (strChars ",")).length
    ∧ (parse_gpu_groups (strChars ",")).get ⟨0, by decide⟩ = [] :=
  ⟨(parse_gpu_groups_empty_token (strChars ",")).1,
   (parse_gpu_groups_empty_token (strChars ",")).2 0 (by decide) (by decide)⟩

/-!
Claim C3: the Metrics Poller never raises — on transport error, non-200
status, or parse failure it returns the unknown/unknown pair. In the
embedding get_worker_stats is a total function, so nothing can
propagate; the theorem checks that each failure path yields exactly
unknownStats.
-/

/-- C3: for every port and every network state, a raised transport error
(connection failure, timeout, ...), a non-200 status, or a failing scan
of the body (a malformed matching line) makes get_worker_stats return
the pair with both fields unknown; being a total Lean function, it
raises nothing on any input. -/
theorem metrics_poll_failure :
    (∀ (net : Nat → HttpOutcome) (port : Nat),
        net port = HttpOutcome.transportError → get_worker_stats net port = unknownStats)
    ∧ (∀ (net : Nat → HttpOutcome) (port status : Nat) (text : Str),
        net port = HttpOutcome.response status text → status ≠ 200 →
        get_worker_stats net port = unknownStats)
    ∧ (∀ (net : Nat → HttpOutcome) (port : Nat) (text : Str),
        net port = HttpOutcome.response 200 text →
        scanMetricLines (splitOnChar '\n' text) 0 0 = none →
        get_worker_stats net port = unknownStats) := by
  refine ⟨?_, ?_, ?_⟩
  · intro net port h
    simp [get_worker_stats, h]
  · intro net port status text h hs
    simp [get_worker_stats, h, hs]
  · intro net port text h hscan
    simp [get_worker_stats, h, hscan]

/-- Witness for C3: a timeout, a 503, and a malformed running line each
produce the unknown/unknown pair. -/
theorem metrics_poll_failure_witness :
    get_worker_stats (fun _ => HttpOutcome.transportError) 8000 = unknownStats
    ∧ get_worker_stats (fun _ => HttpOutcome.response 503 (strChars "ok")) 8000 = unknownStats
    ∧ get_worker_stats
        (fun _ => HttpOutcome.response 200 (strChars "vllm:num_requests_running\x7b\x7d"))
        8000 = unknownStats :=
  ⟨metrics_poll_failure.1 (fun _ => HttpOutcome.transportError) 8000 rfl,
   metrics_poll_failure.2.1 (fun _ => HttpOutcome.response 503 (strChars "ok")) 8000 503
     (strChars "ok") rfl (by decide),
   metrics_poll_failure.2.2
     (fun _ => HttpOutcome.response 200 (strChars "vllm:num_requests_running\x7b\x7d"))
     8000 (strChars "vllm:num_requests_running\x7b\x7d") rfl (by decide)⟩

/-!
Claim C8: on a 200 body the poller parses the last token of each
matching line as a truncated float, and an absent line leaves the
corresponding field at 0, not unknown.
-/

theorem scanMetricLines_no_running (ls : List Str)
    (h : ∀ l ∈ ls, lStartsWith runningKey l = false) :
    ∀ running total p, scanMetricLines ls running total = some p → p.1 = running := by
  induction ls with
  | nil => intro running total p hp; simp [scanMetricLines] at hp; simp [← hp]
  | cons l rest ih =>
    intro running total p hp
    have hl : lStartsWith runningKey l = false := h l (by simp)
    have hrest : ∀ x ∈ rest, lStartsWith runningKey x = false := fun x hx => h x (by simp [hx])
    simp only [scanMetricLines, hl] at hp
    by_cases hs : lStartsWith successKey l = true
    · simp only [hs, if_true, Bool.false_eq_true, if_false] at hp
      rcases hv : parseLastTok l with _ | v
      · rw [hv] at hp; exact absurd hp (by simp)
      · rw [hv] at hp; exact ih hrest running v p hp
    · simp only [Bool.not_eq_true] at hs
      simp only [hs, Bool.false_eq_true, if_false] at hp
      exact ih hrest running total p hp

theorem scanMetricLines_no_success (ls : List Str)
    (h : ∀ l ∈ ls, lStartsWith successKey l = false) :
    ∀ running total p, scanMetricLines ls running total = some p → p.2 = total := by
  induction ls with
  | nil => intro running total p hp; simp [scanMetricLines] at hp; simp [← hp]
  | cons l rest ih =>
    intro running total p hp
    have hl : lStartsWith successKey l = false := h l (by simp)
    have hrest : ∀ x ∈ rest, lStartsWith successKey x = false := fun x hx => h x (by simp [hx])
    simp only [scanMetricLines, hl] at hp
    by_cases hr : lStartsWith runningKey l = true
    · simp only [hr, if_true] at hp
      rcases hv : parseLastTok l with _ | v
      · rw [hv] at hp; exact absurd hp (by simp)
      · rw [hv] at hp; exact ih hrest v total p hp
    · simp only [Bool.not_eq_true] at hr
      simp only [hr, Bool.false_eq_true, if_false] at hp
      exact ih hrest running total p hp

/-- Response body of the C8 example: a running gauge at 3.0 and a
success counter at 128.0, with label sets between braces. -/
def exampleMetricsBody : Str := strChars
  "vllm:num_requests_running\x7bmodel_name=\"m\"\x7d 3.0\nvllm:request_success_total\x7bmodel_name=\"m\"\x7d 128.0"

/-- C8: on the example 200 body the poller returns current_processing 3
and total_processed 128 (the last token of each matching line parsed as
a float and truncated); and for every 200 body, a field whose metric
line is absent comes back as known 0 — never unknown — whenever the
scan completes. -/
theorem metrics_poll_success :
    get_worker_stats (fun _ => HttpOutcome.response 200 exampleMetricsBody) 8000 =
      ⟨StatVal.known 3, StatVal.known 128⟩
    ∧ (∀ text : Str, ∀ p : Int × Int,
        (∀ l ∈ splitOnChar '\n' text, lStartsWith runningKey l = false) →
        scanMetricLines (splitOnChar '\n' text) 0 0 = some p →
        ∀ net : Nat → HttpOutcome, ∀ port : Nat, net port = HttpOutcome.response 200 text →
        get_worker_stats net port = ⟨StatVal.known 0, StatVal.known p.2⟩)
    ∧ (∀ text : Str, ∀ p : Int × Int,
        (∀ l ∈ splitOnChar '\n' text, lStartsWith successKey l = false) →
        scanMetricLines (splitOnChar '\n' text) 0 0 = some p →
        ∀ net : Nat → HttpOutcome, ∀ port : Nat, net port = HttpOutcome.response 200 text →
        get_worker_stats net port = ⟨StatVal.known p.1, StatVal.known 0⟩) := by
  refine ⟨by decide, ?_, ?_⟩
  · intro text p hnone hscan net port hnet
    have h1 : p.1 = 0 := scanMetricLines_no_running _ hnone 0 0 p hscan
    simp [get_worker_stats, hnet, hscan, h1]
  · intro text p hnone hscan net port hnet
    have h2 : p.2 = 0 := scanMetricLines_no_success _ hnone 0 0 p hscan
    simp [get_worker_stats, hnet, hscan, h2]

/-- Witness for C8: a body carrying only the success counter yields
current_processing 0 (absent running line) and total_processed 128. -/
theorem metrics_poll_success_witness :
    get_worker_stats
      (fun _ => HttpOutcome.response 200 (strChars "vllm:request_success_total\x7b\x7d 128.0"))
      8000 = ⟨StatVal.known 0, StatVal.known 128⟩ :=
  metrics_poll_success.2.1 (strChars "vllm:request_success_total\x7b\x7d 128.0") (0, 128)
    (by decide) (by decide)
    (fun _ => HttpOutcome.response 200 (strChars "vllm:request_success_total\x7b\x7d 128.0"))
    8000 rfl

/-!
Claim C7: structure of the rendered nginx configuration.
-/

/-- Marker with which every upstream pool entry line begins. -/
def serverKeyStr : Str := strChars "        server 127.0.0.1:"

/-- Marker with which the listen directive line begins. -/
def listenKeyStr : Str := strChars "        listen "

/-- Lines of the rendered configuration, split as a text file is read. -/
def configLines (port_list : List Nat) (nginx_port : Nat) : List Str :=
  splitOnChar '\n' (generate_nginx_config port_list nginx_port)

/-- Tail lines before the listen directive. -/
def configTailA : List Str :=
  [strChars "", strChars "    \x7d", strChars "    server \x7b"]

/-- Tail lines after the listen directive. -/
def configTailB : List Str :=
  [ strChars "        location / \x7b",
    strChars "            proxy_pass http://vllm_backend;",
    strChars "            proxy_http_version 1.1;",
    strChars "            proxy_set_header Connection \"\";",
    strChars "            proxy_buffering off; ",
    strChars "        \x7d",
    strChars "    \x7d",
    strChars "\x7d" ]

theorem configTailLines_split (nginx_port : Nat) :
    configTailLines nginx_port = configTailA ++ listenLine nginx_port :: configTailB := rfl

theorem digitCh_ne_nl (n : Nat) : digitCh n ≠ '\n' := by
  unfold digitCh
  repeat' split
  all_goals decide

theorem nl_not_mem_natCharsAux (fuel n : Nat) : '\n' ∉ natCharsAux fuel n := by
  induction fuel generalizing n with
  | zero => simp [natCharsAux]
  | succ f ih =>
    simp only [natCharsAux]
    by_cases h : n = 0
    · simp [h]
    · simp only [h, if_false, List.mem_append, List.mem_singleton]
      rintro (hm | hm)
      · exact ih (n / 10) hm
      · exact digitCh_ne_nl (n % 10) hm.symm

theorem nl_not_mem_natChars (n : Nat) : '\n' ∉ natChars n := by
  unfold natChars
  by_cases h : n = 0
  · simp [h]
  · simp only [h, if_false]
    exact nl_not_mem_natCharsAux n n

theorem nl_not_mem_serverLine (port : Nat) : '\n' ∉ serverLine port := by
  unfold serverLine
  simp only [List.mem_append]
  rintro ((hm | hm) | hm)
  · revert hm; decide
  · exact nl_not_mem_natChars port hm
  · simp at hm

theorem nl_not_mem_listenLine (nginx_port : Nat) : '\n' ∉ listenLine nginx_port := by
  unfold listenLine
  simp only [List.mem_append]
  rintro ((hm | hm) | hm)
  · revert hm; decide
  · exact nl_not_mem_natChars nginx_port hm
  · simp at hm

theorem upstream_block_unlines (port_list : List Nat) :
    upstream_block port_list = unlines (port_list.map serverLine) := by
  induction port_list with
  | nil => simp [upstream_block, unlines]
  | cons p ps ih => simp [upstream_block, unlines, List.foldr] at ih ⊢; exact ih

/-- Decomposition of the rendered configuration into its lines: the
fixed header, one upstream server line per worker port in input order,
the fixed tail around the single listen line, and the final empty piece
left by the terminating newline of the file. -/
theorem configLines_eq (port_list : List Nat) (nginx_port : Nat) :
    configLines port_list nginx_port =
      configHeadLines ++ port_list.map serverLine ++ configTailLines nginx_port ++ [[]] := by
  have h : generate_nginx_config port_list nginx_port =
      unlines (configHeadLines ++ (port_list.map serverLine ++ configTailLines nginx_port)) := by
    unfold generate_nginx_config
    rw [upstream_block_unlines, unlines_append, unlines_append, List.append_assoc]
  have hside : ∀ l ∈ configHeadLines ++ (port_list.map serverLine ++ configTailLines nginx_port),
      '\n' ∉ l := by
    intro l hl
    rcases List.mem_append.mp hl with h1 | h1
    · exact (by decide : ∀ x ∈ configHeadLines, '\n' ∉ x) l h1
    · rcases List.mem_append.mp h1 with h2 | h2
      · rcases List.mem_map.mp h2 with ⟨p, _, hp⟩
        exact hp ▸ nl_not_mem_serverLine p
      · rw [configTailLines_split] at h2
        rcases List.mem_append.mp h2 with h3 | h3
        · exact (by decide : ∀ x ∈ configTailA, '\n' ∉ x) l h3
        · rcases List.mem_cons.mp h3 with h4 | h4
          · exact h4 ▸ nl_not_mem_listenLine nginx_port
          · exact (by decide : ∀ x ∈ configTailB, '\n' ∉ x) l h4
  unfold configLines
  rw [h, splitOnChar_unlines _ hside]
  simp

theorem lStartsWith_serverLine (port : Nat) :
    lStartsWith serverKeyStr (serverLine port) = true := by
  unfold serverLine serverKeyStr
  rw [List.append_assoc]
  exact lStartsWith_self_append _ _

theorem not_listen_serverLine (port : Nat) :
    lStartsWith listenKeyStr (serverLine port) = false := by
  unfold serverLine
  rw [List.append_assoc, lStartsWith_append]
  have h1 : lStartsWith (listenKeyStr.take (strChars "        server 127.0.0.1:").length)
      (strChars "        server 127.0.0.1:") = false := by decide
  rw [h1, Bool.false_and]

theorem not_server_listenLine (nginx_port : Nat) :
    lStartsWith serverKeyStr (listenLine nginx_port) = false := by
  unfold listenLine
  rw [List.append_assoc, lStartsWith_append]
  have h1 : lStartsWith (serverKeyStr.take (strChars "        listen ").length)
      (strChars "        listen ") = false := by decide
  rw [h1, Bool.false_and]

theorem lStartsWith_listenLine (nginx_port : Nat) :
    lStartsWith listenKeyStr (listenLine nginx_port) = true := by
  unfold listenLine listenKeyStr
  rw [List.append_assoc]
  exact lStartsWith_self_append _ _

theorem serverBlockOpen_ne_serverLine (port : Nat) :
    serverLine port ≠ strChars "    server \x7b" := by
  intro h
  have := lStartsWith_serverLine port
  rw [h] at this
  revert this
  decide

theorem serverBlockOpen_ne_listenLine (nginx_port : Nat) :
    listenLine nginx_port ≠ strChars "    server \x7b" := by
  intro h
  have := lStartsWith_listenLine nginx_port
  rw [h] at this
  revert this
  decide

/-- C7: for every non-empty worker port list and every listen port, the
lines of the rendered configuration that begin an upstream pool entry
are exactly one server 127.0.0.1:PORT line per worker port, in input
order; the pool carries the least-connections directive; exactly one
listen line exists and it binds the configured port; there is exactly
one virtual server block, with the long read timeout, buffering off,
the Connection header cleared, and a catch-all location proxying to the
pool. -/
theorem nginx_config_spec (port_list : List Nat) (nginx_port : Nat)
    (_hne : port_list ≠ []) :
    (configLines port_list nginx_port).filter (fun l => lStartsWith serverKeyStr l) =
      port_list.map serverLine
    ∧ strChars "        least_conn;" ∈ configLines port_list nginx_port
    ∧ (configLines port_list nginx_port).filter (fun l => lStartsWith listenKeyStr l) =
        [listenLine nginx_port]
    ∧ (configLines port_list nginx_port).count (strChars "    server \x7b") = 1
    ∧ strChars "    proxy_read_timeout 1200s;" ∈ configLines port_list nginx_port
    ∧ strChars "            proxy_buffering off; " ∈ configLines port_list nginx_port
    ∧ strChars "            proxy_set_header Connection \"\";" ∈ configLines port_list nginx_port
    ∧ strChars "            proxy_pass http://vllm_backend;" ∈ configLines port_list nginx_port
    ∧ strChars "        location / \x7b" ∈ configLines port_list nginx_port := by
  rw [configLines_eq, configTailLines_split]
  refine ⟨?_, ?_, ?_, ?_, ?_, ?_, ?_, ?_, ?_⟩
  · have h1 : configHeadLines.filter (fun l => lStartsWith serverKeyStr l) = [] := by decide
    have h2 : (port_list.map serverLine).filter (fun l => lStartsWith serverKeyStr l) =
        port_list.map serverLine := by
      apply List.filter_eq_self.mpr
      intro a ha
      rcases List.mem_map.mp ha with ⟨p, _, hp⟩
      exact hp ▸ lStartsWith_serverLine p
    have h3 : configTailA.filter (fun l => lStartsWith serverKeyStr l) = [] := by decide
    have h5 : List.filter (fun l => lStartsWith serverKeyStr l) [([] : Str)] = [] := by decide
    have hcons : List.filter (fun l => lStartsWith serverKeyStr l)
        (listenLine nginx_port :: configTailB) =
        List.filter (fun l => lStartsWith serverKeyStr l) configTailB := by
      rw [List.filter_cons]
      simp [not_server_listenLine]
    have h4 : configTailB.filter (fun l => lStartsWith serverKeyStr l) = [] := by decide
    simp only [List.filter_append, hcons, h1, h2, h3, h4, h5]
    simp
  · refine List.mem_append.mpr (Or.inl ?_)
    refine List.mem_append.mpr (Or.inl ?_)
    refine List.mem_append.mpr (Or.inl ?_)
    decide
  · have h1 : configHeadLines.filter (fun l => lStartsWith listenKeyStr l) = [] := by decide
    have h2 : (port_list.map serverLine).filter (fun l => lStartsWith listenKeyStr l) = [] := by
      apply List.filter_eq_nil_iff.mpr
      intro a ha
      rcases List.mem_map.mp ha with ⟨p, _, hp⟩
      simp [← hp, not_listen_serverLine p]
    have h3 : configTailA.filter (fun l => lStartsWith listenKeyStr l) = [] := by decide
    have h4 : configTailB.filter (fun l => lStartsWith listenKeyStr l) = [] := by decide
    have h5 : List.filter (fun l => lStartsWith listenKeyStr l) [([] : Str)] = [] := by decide
    have hcons : List.filter (fun l => lStartsWith listenKeyStr l)
        (listenLine nginx_port :: configTailB) = [listenLine nginx_port] := by
      rw [List.filter_cons]
      simp [lStartsWith_listenLine, h4]
    simp only [List.filter_append, hcons, h1, h2, h3, h5]
    simp
  · have h1 : configHeadLines.count (strChars "    server \x7b") = 0 := by decide
    have h2 : (port_list.map serverLine).count (strChars "    server \x7b") = 0 := by
      apply List.count_eq_zero.mpr
      intro hmem
      rcases List.mem_map.mp hmem with ⟨p, _, hp⟩
      exact serverBlockOpen_ne_serverLine p hp
    have h3 : configTailA.count (strChars "    server \x7b") = 1 := by decide
    have h4 : configTailB.count (strChars "    server \x7b") = 0 := by decide
    have h5 : List.count (strChars "    server \x7b") [([] : Str)] = 0 := by decide
    have hcons : List.count (strChars "    server \x7b")
        (listenLine nginx_port :: configTailB) = 0 := by
      rw [List.count_cons]
      simp [serverBlockOpen_ne_listenLine nginx_port, h4]
    simp only [List.count_append, hcons, h1, h2, h3, h5]
  · refine List.mem_append.mpr (Or.inl ?_)
    refine List.mem_append.mpr (Or.inl ?_)
    refine List.mem_append.mpr (Or.inl ?_)
    decide
  · refine List.mem_append.mpr (Or.inl ?_)
    refine List.mem_append.mpr (Or.inr ?_)
    refine List.mem_append.mpr (Or.inr ?_)
    refine List.mem_cons_of_mem _ ?_
    decide
  · refine List.mem_append.mpr (Or.inl ?_)
    refine List.mem_append.mpr (Or.inr ?_)
    refine List.mem_append.mpr (Or.inr ?_)
    refine List.mem_cons_of_mem _ ?_
    decide
  · refine List.mem_append.mpr (Or.inl ?_)
    refine List.mem_append.mpr (Or.inr ?_)
    refine List.mem_append.mpr (Or.inr ?_)
    refine List.mem_cons_of_mem _ ?_
    decide
  · refine List.mem_append.mpr (Or.inl ?_)
    refine List.mem_append.mpr (Or.inr ?_)
    refine List.mem_append.mpr (Or.inr ?_)
    refine List.mem_cons_of_mem _ ?_
    decide

/-- Witness for C7: the claim instance with worker ports 8000 and 8001
and listen port 8080. -/
theorem nginx_config_spec_witness :
    (configLines [8000, 8001] 8080).filter (fun l => lStartsWith serverKeyStr l) =
      [serverLine 8000, serverLine 8001]
    ∧ (configLines [8000, 8001] 8080).filter (fun l => lStartsWith listenKeyStr l) =
        [listenLine 8080] :=
  ⟨(nginx_config_spec [8000, 8001] 8080 (by decide)).1,
   (nginx_config_spec [8000, 8001] 8080 (by decide)).2.2.1⟩

/-!
Claim C1: what the cleanup pass signals. The source guards every killpg
with poll() — an entry whose process has already exited is skipped, not
signaled — so the claim as stated fails; the amended statement proves
what the loop does: one pass over the registry in order, exactly one
signal attempt per still-running entry, OSError ignored, no signal for
already-exited entries.
-/

theorem cleanupFrom_length (procs : List ProcHandle) :
    ∀ idx, (cleanupFrom idx procs).length = procs.length := by
  induction procs with
  | nil => intro idx; simp [cleanupFrom]
  | cons p rest ih => intro idx; simp only [cleanupFrom, List.length_cons, ih]

theorem cleanupFrom_count_lt (procs : List ProcHandle) :
    ∀ idx j, j < idx →
      (cleanupFrom idx procs).count (CleanupEvent.signaled j) = 0
      ∧ (cleanupFrom idx procs).count (CleanupEvent.errorIgnored j) = 0 := by
  induction procs with
  | nil => intro idx j _; simp [cleanupFrom]
  | cons p rest ih =>
    intro idx j hj
    have hrec := ih (idx + 1) j (Nat.lt_succ_of_lt hj)
    constructor
    · simp only [cleanupFrom, List.count_cons, hrec.1]
      by_cases h1 : p.pollIsNone <;> by_cases h2 : p.killpgRaises <;>
        simp [h1, h2, Nat.ne_of_gt hj]
    · simp only [cleanupFrom, List.count_cons, hrec.2]
      by_cases h1 : p.pollIsNone <;> by_cases h2 : p.killpgRaises <;>
        simp [h1, h2, Nat.ne_of_gt hj]

theorem cleanupFrom_count_at (procs : List ProcHandle) :
    ∀ idx i (h : i < procs.length),
      (cleanupFrom idx procs).count (CleanupEvent.signaled (idx + i)) =
        (if (procs.get ⟨i, h⟩).pollIsNone ∧ ¬ (procs.get ⟨i, h⟩).killpgRaises then 1 else 0)
      ∧ (cleanupFrom idx procs).count (CleanupEvent.errorIgnored (idx + i)) =
        (if (procs.get ⟨i, h⟩).pollIsNone ∧ (procs.get ⟨i, h⟩).killpgRaises then 1 else 0) := by
  induction procs with
  | nil => intro idx i h; exact absurd h (by simp)
  | cons p rest ih =>
    intro idx i h
    cases i with
    | zero =>
      have hlt : ∀ e ∈ cleanupFrom (idx + 1) rest, ∀ j, j ≤ idx →
          e ≠ CleanupEvent.signaled j ∧ e ≠ CleanupEvent.errorIgnored j := by
        intro e _ j hj
        constructor <;> intro hej <;> subst hej
        · have := (cleanupFrom_count_lt rest (idx + 1) j (Nat.lt_succ_of_le hj)).1
          have hmem := List.count_pos_iff.mpr (by assumption)
          omega
        · have := (cleanupFrom_count_lt rest (idx + 1) j (Nat.lt_succ_of_le hj)).2
          have hmem := List.count_pos_iff.mpr (by assumption)
          omega
      have hz1 := (cleanupFrom_count_lt rest (idx + 1) idx (Nat.lt_succ_self idx)).1
      have hz2 := (cleanupFrom_count_lt rest (idx + 1) idx (Nat.lt_succ_self idx)).2
      simp only [Nat.add_zero, List.get_eq_getElem, List.getElem_cons_zero]
      constructor
      · simp only [cleanupFrom, List.count_cons, hz1]
        by_cases h1 : p.pollIsNone <;> by_cases h2 : p.killpgRaises <;>
          simp [h1, h2]
      · simp only [cleanupFrom, List.count_cons, hz2]
        by_cases h1 : p.pollIsNone <;> by_cases h2 : p.killpgRaises <;>
          simp [h1, h2]
    | succ i' =>
      have h' : i' < rest.length := by simpa using Nat.lt_of_succ_lt_succ h
      have hrec := ih (idx + 1) i' h'
      have harith : idx + (i' + 1) = (idx + 1) + i' := by omega
      have hne1 : CleanupEvent.signaled (idx + (i' + 1)) ≠ CleanupEvent.signaled idx := by
        intro hc; cases hc
      have hne2 : CleanupEvent.errorIgnored (idx + (i' + 1)) ≠ CleanupEvent.errorIgnored idx := by
        intro hc; cases hc
      simp only [List.get_eq_getElem, List.getElem_cons_succ]
      constructor
      · simp only [cleanupFrom, List.count_cons, harith, hrec.1]
        by_cases h1 : p.pollIsNone <;> by_cases h2 : p.killpgRaises <;>
          simp only [h1, h2, List.get_eq_getElem] at hne1 ⊢ <;>
          simp [← harith, hne1]
      · simp only [cleanupFrom, List.count_cons, harith, hrec.2]
        by_cases h1 : p.pollIsNone <;> by_cases h2 : p.killpgRaises <;>
          simp only [h1, h2, List.get_eq_getElem] at hne2 ⊢ <;>
          simp [← harith, hne2]

/-- C1 counterexample: a registry holding one entry whose process has
already exited (poll() returns an exit code). The cleanup pass skips it
and sends zero signals — not exactly one as the claim states for every
entry ever added. -/
theorem cleanup_dead_entry_cex :
    cleanup_processes [⟨false, false⟩] = [CleanupEvent.skipped 0]
    ∧ signalCount (cleanup_processes [⟨false, false⟩]) 0 = 0
    ∧ attemptCount (cleanup_processes [⟨false, false⟩]) 0 = 0 := by
  decide

/-- C1 amended: the cleanup pass walks every registry entry exactly once
in insertion order and never raises; every entry whose process has not
exited receives exactly one termination-signal attempt on its process
group (delivered, or OSError raised by the race and ignored); an entry
whose process has already exited is skipped and receives none. On the
registry of the claim scenario — three workers, one of them already
exited, and the proxy — the three live process groups are signaled once
each and the dead worker not at all. -/
theorem cleanup_signals_live_once (procs : List ProcHandle) :
    (cleanup_processes procs).length = procs.length
    ∧ (∀ i (h : i < procs.length),
        attemptCount (cleanup_processes procs) i =
          (if (procs.get ⟨i, h⟩).pollIsNone then 1 else 0)
        ∧ signalCount (cleanup_processes procs) i =
          (if (procs.get ⟨i, h⟩).pollIsNone ∧ ¬ (procs.get ⟨i, h⟩).killpgRaises
           then 1 else 0))
    ∧ cleanup_processes [⟨true, false⟩, ⟨true, false⟩, ⟨false, false⟩, ⟨true, false⟩] =
        [CleanupEvent.signaled 0, CleanupEvent.signaled 1,
         CleanupEvent.skipped 2, CleanupEvent.signaled 3] := by
  refine ⟨cleanupFrom_length procs 0, ?_, by decide⟩
  intro i h
  have hc := cleanupFrom_count_at procs 0 i h
  rw [Nat.zero_add] at hc
  constructor
  · unfold attemptCount cleanup_processes
    rw [hc.1, hc.2]
    by_cases h1 : (procs.get ⟨i, h⟩).pollIsNone <;>
      by_cases h2 : (procs.get ⟨i, h⟩).killpgRaises <;>
      simp only [List.get_eq_getElem] at h1 h2 <;>
      simp [h1, h2]
  · unfold signalCount cleanup_processes
    exact hc.1

/-- Witness for C1 amended: on a two-entry registry with one live and
one dead process, the live entry gets exactly one signal and the dead
entry zero. -/
theorem cleanup_signals_live_once_witness :
    signalCount (cleanup_processes [⟨true, false⟩, ⟨false, false⟩]) 0 = 1
    ∧ signalCount (cleanup_processes [⟨true, false⟩, ⟨false, false⟩]) 1 = 0 :=
  ⟨by
    have h := ((cleanup_signals_live_once [⟨true, false⟩, ⟨false, false⟩]).2.1 0 (by decide)).2
    simpa using h,
   by
    have h := ((cleanup_signals_live_once [⟨true, false⟩, ⟨false, false⟩]).2.1 1 (by decide)).2
    simpa using h⟩

/-!
Claim C6: any preflight failure — missing nginx binary, occupied
load-balancer port, or any occupied planned worker port — aborts the
run before a single process is spawned, with the registry empty.
-/

/-- C6: whenever the nginx binary is missing, or the load-balancer port
is bound, or some planned worker port startPort + i is bound, the setup
phase aborts, its event trace is empty (nothing was spawned) and the
process registry is empty. -/
theorem preflight_abort_spec (env : SysEnv) (cfg : DeployConfig)
    (h : env.nginxFound = false
      ∨ env.portUsed cfg.nginxPort = true
      ∨ ∃ i, i < cfg.gpuGroups.length ∧ env.portUsed (cfg.startPort + i) = true) :
    (mainSetup env cfg).aborted = true
    ∧ (mainSetup env cfg).events = []
    ∧ (mainSetup env cfg).registry = [] := by
  have hcheck : check_requirements env cfg = false := by
    unfold check_requirements is_port_in_use
    rcases h with h | h | ⟨i, hi, hp⟩
    · simp [h]
    · simp [h]
    · simp only [Bool.and_eq_false_iff]
      right
      rw [List.all_eq_false]
      exact ⟨i, List.mem_range.mpr hi, by simp [hp]⟩
  unfold mainSetup
  rw [hcheck]
  exact ⟨rfl, rfl, rfl⟩

/-- Witness for C6: with worker port 8001 already bound (one of two
planned worker ports for start port 8000), setup aborts with no events
and an empty registry. -/
theorem preflight_abort_spec_witness :
    (mainSetup ⟨true, fun p => p = 8001⟩
        ⟨[strChars "0,1", strChars "2,3"], 8080, 8000⟩).aborted = true
    ∧ (mainSetup ⟨true, fun p => p = 8001⟩
        ⟨[strChars "0,1", strChars "2,3"], 8080, 8000⟩).events = []
    ∧ (mainSetup ⟨true, fun p => p = 8001⟩
        ⟨[strChars "0,1", strChars "2,3"], 8080, 8000⟩).registry = [] := by
  refine preflight_abort_spec _ _ (Or.inr (Or.inr ?_))
  exact ⟨1, by decide⟩

/-!
Claim C9: ordering of the setup phase — all workers spawned and
registered in placement order first, then a single config render over
the complete worker port list, then the proxy spawn, registered last.
-/

/-- Per-placement event pair of the spawn loop. -/
def workerEventPair (startPort : Nat) (groups : List Str) (i : Nat) : List SetupEvent :=
  [SetupEvent.spawnWorker i (startPort + i) (groups.getD i []),
   SetupEvent.registerWorker i]

/-- Recognises a config-render event. -/
def isGenConfig : SetupEvent → Bool
  | SetupEvent.genConfig _ _ => true
  | _ => false

theorem spawnWorkers_spec (groups : List Str) :
    ∀ idx port, spawnWorkers idx port groups =
      ( ((List.range groups.length).map (fun i =>
           [SetupEvent.spawnWorker (idx + i) (port + i) (groups.getD i []),
            SetupEvent.registerWorker (idx + i)])).flatten,
        (List.range groups.length).map (fun i => Handle.worker (idx + i)),
        (List.range groups.length).map (fun i => port + i) ) := by
  induction groups with
  | nil => intro idx port; simp [spawnWorkers]
  | cons g gs ih =>
    intro idx port
    simp only [spawnWorkers, ih (idx + 1) (port + 1), List.length_cons,
      List.range_succ_eq_map, List.map_cons, List.map_map, List.flatten_cons,
      Nat.add_zero, List.getD_cons_zero, Prod.mk.injEq]
    refine ⟨?_, ?_, ?_⟩
    · simp only [List.cons_append, List.nil_append, List.cons.injEq, true_and]
      congr 1
      apply List.map_congr_left
      intro i _
      simp only [Function.comp]
      have h1 : idx + 1 + i = idx + (i + 1) := by omega
      have h2 : port + 1 + i = port + (i + 1) := by omega
      rw [h1, h2]
      simp
    · congr 1
      apply List.map_congr_left
      intro i _
      simp only [Function.comp]
      have h1 : idx + 1 + i = idx + (i + 1) := by omega
      rw [h1]
    · congr 1
      apply List.map_congr_left
      intro i _
      simp only [Function.comp]
      omega

/-- C9: when preflight passes, the setup events are exactly the
per-placement spawn-then-register pairs in placement order, followed by
a single config render carrying the complete worker port list, followed
by the proxy spawn and its registration; the registry lists the workers
in placement order with the proxy last; and the trace contains exactly
one config-render event, so no port is ever added to or removed from
the proxy configuration after the initial render. -/
theorem setup_ordering_spec (env : SysEnv) (cfg : DeployConfig)
    (h : check_requirements env cfg = true) :
    (mainSetup env cfg).events =
      ((List.range cfg.gpuGroups.length).map
          (fun i => workerEventPair cfg.startPort cfg.gpuGroups i)).flatten
        ++ [SetupEvent.genConfig (mainSetup env cfg).workerPorts cfg.nginxPort,
            SetupEvent.spawnNginx, SetupEvent.registerNginx]
    ∧ (mainSetup env cfg).workerPorts =
        (List.range cfg.gpuGroups.length).map (fun i => cfg.startPort + i)
    ∧ (mainSetup env cfg).registry =
        (List.range cfg.gpuGroups.length).map Handle.worker ++ [Handle.nginx]
    ∧ ((mainSetup env cfg).events.filter (fun e => isGenConfig e)) =
        [SetupEvent.genConfig (mainSetup env cfg).workerPorts cfg.nginxPort] := by
  have hs := spawnWorkers_spec cfg.gpuGroups 0 cfg.startPort
  have hmain : mainSetup env cfg =
      { aborted := false,
        events := (spawnWorkers 0 cfg.startPort cfg.gpuGroups).1 ++
          [SetupEvent.genConfig (spawnWorkers 0 cfg.startPort cfg.gpuGroups).2.2 cfg.nginxPort,
           SetupEvent.spawnNginx, SetupEvent.registerNginx],
        registry := (spawnWorkers 0 cfg.startPort cfg.gpuGroups).2.1 ++ [Handle.nginx],
        workerPorts := (spawnWorkers 0 cfg.startPort cfg.gpuGroups).2.2 } := by
    unfold mainSetup
    rw [h]
    simp
  rw [hmain]
  simp only [hs]
  refine ⟨?_, ?_, ?_, ?_⟩
  · simp only [Nat.zero_add, workerEventPair]
  · trivial
  · simp only [Nat.zero_add]
  · rw [List.filter_append]
    have h1 : (((List.range cfg.gpuGroups.length).map (fun i =>
        [SetupEvent.spawnWorker (0 + i) (cfg.startPort + i) (cfg.gpuGroups.getD i []),
         SetupEvent.registerWorker (0 + i)])).flatten).filter (fun e => isGenConfig e) = [] := by
      apply List.filter_eq_nil_iff.mpr
      intro e he
      rcases List.mem_flatten.mp he with ⟨pair, hpair, hepair⟩
      rcases List.mem_map.mp hpair with ⟨i, _, hi⟩
      rw [← hi] at hepair
      rcases List.mem_cons.mp hepair with h2 | h2
      · rw [h2]; simp [isGenConfig]
      · rcases List.mem_cons.mp h2 with h3 | h3
        · rw [h3]; simp [isGenConfig]
        · exact absurd h3 (by simp)
    rw [h1]
    simp [isGenConfig, List.filter]

/-- Witness for C9: the setup trace for two GPU groups at start port
8000 and listen port 8080 — two spawn/register pairs, one config render
over ports 8000 and 8001, then the proxy spawn and registration. -/
theorem setup_ordering_spec_witness :
    (mainSetup ⟨true, fun _ => false⟩ ⟨[strChars "0,1", strChars "2,3"], 8080, 8000⟩).registry =
      [Handle.worker 0, Handle.worker 1, Handle.nginx]
    ∧ (mainSetup ⟨true, fun _ => false⟩
        ⟨[strChars "0,1", strChars "2,3"], 8080, 8000⟩).workerPorts = [8000, 8001] := by
  have h := setup_ordering_spec ⟨true, fun _ => false⟩
    ⟨[strChars "0,1", strChars "2,3"], 8080, 8000⟩ (by decide)
  exact ⟨h.2.2.1.trans (by decide), h.2.1.trans (by decide)⟩

/-!
Claims C2 and C10: behaviour of the monitor loop. C2: the loop leaves
only on proxy death or interrupt — dead workers alone never end it, and
each iteration reports at most the first dead worker. C10: the first
stats refresh happens on the very first iteration because
last_stats_time starts at 0, and later refreshes wait for the interval.
-/

theorem scanWorkers_length (ws : List Bool) :
    ∀ idx, (scanWorkers idx ws).length ≤ 1 := by
  induction ws with
  | nil => intro idx; simp [scanWorkers]
  | cons b rest ih =>
    intro idx
    by_cases hb : b = true
    · simp only [scanWorkers, hb, if_true]
      exact ih (idx + 1)
    · simp only [Bool.not_eq_true] at hb
      simp [scanWorkers, hb]

theorem scanWorkers_first_dead (ws1 : List Bool) :
    ∀ ws2 idx, (∀ b ∈ ws1, b = true) →
      scanWorkers idx (ws1 ++ false :: ws2) = [idx + ws1.length] := by
  induction ws1 with
  | nil => intro ws2 idx _; simp [scanWorkers]
  | cons b rest ih =>
    intro ws2 idx hall
    have hb : b = true := hall b (by simp)
    have hrest : ∀ x ∈ rest, x = true := fun x hx => hall x (by simp [hx])
    simp only [List.cons_append, scanWorkers, hb, if_true, List.append_eq]
    rw [ih ws2 (idx + 1) hrest, List.length_cons,
      show idx + 1 + rest.length = idx + (rest.length + 1) from by omega]

theorem runLoop_alive (ticks : List Tick) :
    ∀ last, (∀ t ∈ ticks, t.nginxAlive = true ∧ t.interrupt = false) →
      (runLoop last ticks).2 = ExitCause.stillRunning
      ∧ (runLoop last ticks).1.length = ticks.length
      ∧ ∀ out ∈ (runLoop last ticks).1, out.reported.length ≤ 1 := by
  induction ticks with
  | nil => intro last _; simp [runLoop]
  | cons t rest ih =>
    intro last hall
    have ht := hall t (by simp)
    have hrest : ∀ x ∈ rest, x.nginxAlive = true ∧ x.interrupt = false :=
      fun x hx => hall x (by simp [hx])
    have hrec := ih (if STATS_INTERVAL ≤ t.now - last then t.now else last) hrest
    simp only [runLoop, ht.1, ht.2, Bool.false_eq_true, if_false, Bool.not_eq_true,
      Bool.true_eq_false, if_true]
    refine ⟨hrec.1, by simp [hrec.2.1], ?_⟩
    intro out hout
    rcases List.mem_cons.mp hout with h | h
    · rw [h]
      exact scanWorkers_length t.workersAlive 0
    · exact hrec.2.2 out h

theorem runLoop_nginxDied (ticks : List Tick) :
    ∀ last, (runLoop last ticks).2 = ExitCause.nginxDied →
      ∃ t ∈ ticks, t.nginxAlive = false := by
  induction ticks with
  | nil => intro last h; simp [runLoop] at h
  | cons t rest ih =>
    intro last h
    by_cases hint : t.interrupt = true
    · simp [runLoop, hint] at h
    · simp only [Bool.not_eq_true] at hint
      by_cases hng : t.nginxAlive = true
      · simp only [runLoop, hint, hng, Bool.false_eq_true, if_false, Bool.not_eq_true,
          Bool.true_eq_false, if_true] at h
        rcases ih _ h with ⟨x, hx, hxf⟩
        exact ⟨x, by simp [hx], hxf⟩
      · simp only [Bool.not_eq_true] at hng
        exact ⟨t, by simp, hng⟩

theorem runLoop_interrupted (ticks : List Tick) :
    ∀ last, (runLoop last ticks).2 = ExitCause.interrupted →
      ∃ t ∈ ticks, t.interrupt = true := by
  induction ticks with
  | nil => intro last h; simp [runLoop] at h
  | cons t rest ih =>
    intro last h
    by_cases hint : t.interrupt = true
    · exact ⟨t, by simp, hint⟩
    · simp only [Bool.not_eq_true] at hint
      by_cases hng : t.nginxAlive = true
      · simp only [runLoop, hint, hng, Bool.false_eq_true, if_false, Bool.not_eq_true,
          Bool.true_eq_false, if_true] at h
        rcases ih _ h with ⟨x, hx, hxf⟩
        exact ⟨x, by simp [hx], hxf⟩
      · simp only [Bool.not_eq_true] at hng
        simp [runLoop, hint, hng] at h

/-- C2: the monitor loop never leaves while the proxy is alive and no
interrupt arrives — whatever the workers do, including all of them
being dead, the schedule runs to exhaustion with the loop still live and
each iteration reporting at most one dead worker; an exit with cause
proxy-death or interrupt implies a tick in which the proxy was dead,
respectively in which the interrupt arrived; and the per-iteration scan
reports exactly the first dead worker and stops there. -/
theorem monitor_loop_exit_spec :
    (∀ ticks : List Tick, (∀ t ∈ ticks, t.nginxAlive = true ∧ t.interrupt = false) →
      (monitorLoop ticks).2 = ExitCause.stillRunning
      ∧ (monitorLoop ticks).1.length = ticks.length
      ∧ ∀ out ∈ (monitorLoop ticks).1, out.reported.length ≤ 1)
    ∧ (∀ ticks : List Tick, ∀ last, (runLoop last ticks).2 = ExitCause.nginxDied →
        ∃ t ∈ ticks, t.nginxAlive = false)
    ∧ (∀ ticks : List Tick, ∀ last, (runLoop last ticks).2 = ExitCause.interrupted →
        ∃ t ∈ ticks, t.interrupt = true)
    ∧ (∀ ws1 ws2 : List Bool, ∀ idx, (∀ b ∈ ws1, b = true) →
        scanWorkers idx (ws1 ++ false :: ws2) = [idx + ws1.length]) :=
  ⟨fun ticks h => runLoop_alive ticks 0 h,
   runLoop_nginxDied,
   runLoop_interrupted,
   fun ws1 ws2 idx h => scanWorkers_first_dead ws1 ws2 idx h⟩

/-- Witness for C2: a two-tick schedule in which both workers are dead
from the start while the proxy stays alive and no interrupt arrives —
the loop is still running after both ticks, and each iteration reported
exactly worker 0. -/
theorem monitor_loop_exit_spec_witness :
    (monitorLoop [⟨false, 1000, true, [false, false]⟩, ⟨false, 1001, true, [false, false]⟩]).2 =
      ExitCause.stillRunning
    ∧ scanWorkers 0 ([] ++ false :: [false]) = [0 + ([] : List Bool).length] :=
  ⟨(monitor_loop_exit_spec.1
      [⟨false, 1000, true, [false, false]⟩, ⟨false, 1001, true, [false, false]⟩]
      (by decide)).1,
   monitor_loop_exit_spec.2.2.2 [] [false] 0 (by decide)⟩

/-- C10: because last_stats_time is initialised to 0, the elapsed-time
test passes on the very first iteration whenever the clock is at least
STATS_INTERVAL (true of any real clock), so the first full stats poll
and render happen one tick after startup; and a refresh that has just
happened suppresses the next one until the interval has elapsed. -/
theorem first_refresh_spec :
    (∀ t : Tick, ∀ ticks : List Tick, t.interrupt = false → STATS_INTERVAL ≤ t.now →
      ((monitorLoop (t :: ticks)).1.head?.map IterOut.rendered) = some true)
    ∧ (∀ t1 t2 : Tick, t1.interrupt = false → t2.interrupt = false →
        t1.nginxAlive = true → STATS_INTERVAL ≤ t1.now →
        t2.now < t1.now + STATS_INTERVAL →
        ((monitorLoop [t1, t2]).1.drop 1).map IterOut.rendered = [false]) := by
  constructor
  · intro t ticks hint hnow
    have hr : (STATS_INTERVAL ≤ t.now - 0) := by simpa using hnow
    simp only [monitorLoop, runLoop, hint, Bool.false_eq_true, if_false]
    by_cases hng : t.nginxAlive = true
    · simp [hng, hr, hnow]
    · simp only [Bool.not_eq_true] at hng
      simp [hng, hr, hnow]
  · intro t1 t2 hint1 hint2 hng1 hnow1 hclose
    have hr1 : (STATS_INTERVAL ≤ t1.now - 0) := by simpa using hnow1
    have hr2 : ¬ (STATS_INTERVAL ≤ t2.now - t1.now) := by
      unfold STATS_INTERVAL at hclose ⊢
      omega
    simp only [monitorLoop, runLoop, hint1, hint2, hng1, Bool.false_eq_true, if_false,
      Bool.not_eq_true, Bool.true_eq_false, if_true, hr1, if_pos hr1]
    by_cases hng2 : t2.nginxAlive = true
    · simp [hng2, hr2]
    · simp only [Bool.not_eq_true] at hng2
      simp [hng2, hr2]

/-- Witness for C10: at clock 1000 on the first tick the table renders
immediately, and with the second tick one second later the refresh is
suppressed. -/
theorem first_refresh_spec_witness :
    ((monitorLoop [⟨false, 1000, true, [true]⟩]).1.head?.map IterOut.rendered) = some true
    ∧ ((monitorLoop [⟨false, 1000, true, [true]⟩, ⟨false, 1001, true, [true]⟩]).1.drop 1).map
        IterOut.rendered = [false] :=
  ⟨first_refresh_spec.1 ⟨false, 1000, true, [true]⟩ [] rfl (by decide),
   first_refresh_spec.2 ⟨false, 1000, true, [true]⟩ ⟨false, 1001, true, [true]⟩ rfl rfl rfl
     (by decide) (by decide)⟩

end VllmDeploy
